import Mathlib

/-
Verification of the borrow/reservation/inventory engine of the
LIBRARY-MANAGEMENT-SYSTEM repository (library_python).

The Python source keeps its state in four sqlite tables (books, users,
borrows, reservations).  We embed the committed database state as four
Lean lists and every engine operation as a function from state to state
plus its returned (success, message) pair.  Timestamps and money amounts
are embedded as rationals (timestamps count seconds, as in
datetime.total_seconds); SQL row updates become list maps keyed on the
row id; an uncaught Python exception becomes an Except.error result
carrying the state that was committed before the raise.

Side effects outside the engine state:
- models/system_log.py (SystemLog.add) is not part of the sources and the
  audit sink is specified as fire-and-forget that never blocks or fails a
  transition, so audit calls are embedded as the identity on the state.
- models/notification.py (Notification.create) writes a notifications row;
  the notifications table is not engine state, but the INSERT can raise,
  and Reservation.mark_ready wraps it in the try/except block that rolls
  the transaction back.  Operations that reach the notification sink
  therefore take an explicit notif_fails flag standing for "the INSERT in
  Notification.create raised".

Interpolated f-string fragments (amounts, titles, deadlines) inside
returned messages are elided; the fixed prefix of each message is kept.
-/

set_option maxHeartbeats 1000000

namespace Library

/- Configuration constants from config/config.py (business rules only).
The attribute MAX_VIOLATIONS_BEFORE_LOCK used by User.add_fine_record is
deliberately absent: config/config.py never defines it, so reading it
raises AttributeError in Python. -/
namespace Config

def MAX_BORROW_LIMIT : Nat := 5

def BORROW_DURATION_DAYS : ℚ := 14

def MAX_RENEWAL_COUNT : Nat := 1

def RENEWAL_EXTENSION_DAYS : ℚ := 7

def PENDING_PICKUP_HOURS : ℚ := 48

def RESERVATION_HOLD_HOURS : ℚ := 48

def GRACE_PERIOD_MINUTES : ℚ := 60

def LATE_FEE_HOURLY : ℚ := 2000

def LATE_FEE_DAILY : ℚ := 10000

end Config

/-- Python int() applied to a rational: truncation toward zero. -/
def pythonInt (q : ℚ) : ℤ := if 0 ≤ q then ⌊q⌋ else -⌊-q⌋

/-- Python x % 1 on a rational: the (always nonnegative) fractional part. -/
def pythonMod1 (q : ℚ) : ℚ := q - ⌊q⌋

/-- Row of the books table (engine fields of models/book.py; catalog-only
columns such as title or isbn are omitted, no claim mentions them). -/
structure Book where
  id : String
  total_copies : ℤ
  available_copies : ℤ
  borrow_count : ℤ
deriving DecidableEq

/-- Row of the users table (engine fields of models/user.py). -/
structure User where
  id : String
  is_locked : Bool
  fines : ℚ
  violations : ℤ
deriving DecidableEq

/-- Row of the borrows table (models/borrow.py). -/
structure Borrow where
  id : String
  user_id : String
  book_id : String
  borrow_date : ℚ
  due_date : ℚ
  return_date : Option ℚ
  status : String
  renewed_count : ℤ
  pending_until : Option ℚ
  condition : Option String
  damage_fee : ℚ
  late_fee : ℚ
deriving DecidableEq

/-- Row of the reservations table (models/reservation.py). -/
structure Reservation where
  id : String
  user_id : String
  book_id : String
  reservation_date : ℚ
  status : String
  notified_date : Option ℚ
  hold_until : Option ℚ
  queue_position : ℤ
deriving DecidableEq

/-- The committed sqlite database state. -/
structure DB where
  books : List Book
  users : List User
  borrows : List Borrow
  reservations : List Reservation
deriving DecidableEq

/-- SELECT * FROM books WHERE id = ? -/
def Book.get_by_id (db : DB) (book_id : String) : Option Book :=
  db.books.find? (fun b => b.id == book_id)

/-- SELECT * FROM users WHERE id = ? -/
def User.get_by_id (db : DB) (user_id : String) : Option User :=
  db.users.find? (fun u => u.id == user_id)

/-- SELECT * FROM borrows WHERE id = ? -/
def Borrow.get_by_id (db : DB) (borrow_id : String) : Option Borrow :=
  db.borrows.find? (fun b => b.id == borrow_id)

/-- SELECT * FROM reservations WHERE id = ? -/
def Reservation.get_by_id (db : DB) (reservation_id : String) : Option Reservation :=
  db.reservations.find? (fun r => r.id == reservation_id)

/-- UPDATE books SET ... WHERE id = ? (whole-row write of the fetched row). -/
def DB.updateBook (db : DB) (b : Book) : DB :=
  { db with books := db.books.map (fun x => if x.id == b.id then b else x) }

/-- UPDATE users SET ... WHERE id = ? -/
def DB.updateUser (db : DB) (u : User) : DB :=
  { db with users := db.users.map (fun x => if x.id == u.id then u else x) }

/-- UPDATE borrows SET ... WHERE id = ? -/
def DB.updateBorrow (db : DB) (b : Borrow) : DB :=
  { db with borrows := db.borrows.map (fun x => if x.id == b.id then b else x) }

/-- UPDATE reservations SET ... WHERE id = ? -/
def DB.updateReservation (db : DB) (r : Reservation) : DB :=
  { db with reservations := db.reservations.map (fun x => if x.id == r.id then r else x) }

/-- Modelled from the spec: models/system_log.py (SystemLog.add) is not among
the sources; section 6 of the spec declares the audit log sink fire-and-forget
("never blocks or fails a transition"), so an audit call leaves the engine
state unchanged. -/
def SystemLog.add (db : DB) (_event _details _severity : String) (_actor : Option String) : DB :=
  db

/-- Borrow.calculate_late_fee (models/borrow.py lines 34-82): grace period,
then tiered hourly/daily charging with round-up, computed from the
timestamp difference in minutes. -/
def Borrow.calculate_late_fee (due_date return_date : ℚ) : ℚ :=
  if return_date ≤ due_date then 0
  else
    let total_minutes : ℚ := (return_date - due_date) / 60
    let grace_minutes := Config.GRACE_PERIOD_MINUTES
    let hourly_rate := Config.LATE_FEE_HOURLY
    let daily_rate := Config.LATE_FEE_DAILY
    if total_minutes ≤ grace_minutes then 0
    else
      let effective_minutes := total_minutes - grace_minutes
      let effective_hours := effective_minutes / 60
      let effective_days := effective_hours / 24
      if effective_hours < 24 then
        let hours_to_charge : ℤ := pythonInt effective_hours + (if 0 < pythonMod1 effective_hours then 1 else 0)
        hours_to_charge * hourly_rate
      else
        let days_to_charge : ℤ := pythonInt effective_days + (if 0 < pythonMod1 effective_days then 1 else 0)
        days_to_charge * daily_rate

/-- The late-fee rule in the words of the specification (section 4.1):
zero when on time or within grace, then ceil of effective hours times the
hourly rate below 24 effective hours, else ceil of effective days times
the daily rate.  Stated separately so the code formula can be proved to
refine it. -/
def lateFeeSpec (due returned : ℚ) : ℚ :=
  if returned ≤ due then 0
  else
    let delayMinutes := (returned - due) / 60
    if delayMinutes ≤ Config.GRACE_PERIOD_MINUTES then 0
    else
      let effectiveMinutes := delayMinutes - Config.GRACE_PERIOD_MINUTES
      if effectiveMinutes < 24 * 60 then
        ⌈effectiveMinutes / 60⌉ * Config.LATE_FEE_HOURLY
      else
        ⌈effectiveMinutes / (24 * 60)⌉ * Config.LATE_FEE_DAILY

/-- Borrow.calculate_damage_fee (models/borrow.py lines 84-109). -/
def Borrow.calculate_damage_fee (condition : String) (book_value : ℚ) : ℚ :=
  if condition == "good" then 0
  else if condition == "minor_damage" then book_value * 0.20
  else if condition == "major_damage" then book_value + 15000
  else if condition == "lost" then book_value + 20000
  else 0

/-- Book.update_available_copies (models/book.py lines 198-217): add the
delta, clamp below at 0 then above at total_copies, persist, commit.
Returns the new state and the updated in-memory book object. -/
def Book.update_available_copies (db : DB) (b : Book) (change : ℤ) : DB × Book :=
  let a1 := b.available_copies + change
  let a2 := if a1 < 0 then 0 else a1
  let a3 := if b.total_copies < a2 then b.total_copies else a2
  let b2 := { b with available_copies := a3 }
  (db.updateBook b2, b2)

/-- Book.increment_borrow_count (models/book.py lines 219-227). -/
def Book.increment_borrow_count (db : DB) (b : Book) : DB × Book :=
  let b2 := { b with borrow_count := b.borrow_count + 1 }
  (db.updateBook b2, b2)

/-- The WHERE clause book_id = ? AND status = waiting shared by the queue
queries of models/reservation.py. -/
def isWaitingFor (book_id : String) (r : Reservation) : Bool :=
  r.book_id == book_id && r.status == "waiting"

/-- Queue positions of the waiting reservations of one book, in table order
(SELECT queue_position FROM reservations WHERE book_id = ? AND status = waiting). -/
def waiting_positions (db : DB) (book_id : String) : List ℤ :=
  (db.reservations.filter (isWaitingFor book_id)).map (fun r => r.queue_position)

/-- SQL MAX over a list of integers (NULL on an empty selection). -/
def max_pos_aux : List ℤ → Option ℤ
  | [] => none
  | x :: xs =>
      match max_pos_aux xs with
      | none => some x
      | some m => some (max x m)

/-- SELECT ... ORDER BY queue_position ASC LIMIT 1 over a selection:
an element with minimal queue position (first such on ties). -/
def next_in_queue_aux : List Reservation → Option Reservation
  | [] => none
  | r :: rs =>
      match next_in_queue_aux rs with
      | none => some r
      | some m => if r.queue_position ≤ m.queue_position then some r else some m

/-- Reservation.get_next_in_queue (models/reservation.py lines 140-153). -/
def Reservation.get_next_in_queue (db : DB) (book_id : String) : Option Reservation :=
  next_in_queue_aux (db.reservations.filter (isWaitingFor book_id))

/-- Reservation.has_active_reservations (models/reservation.py lines 155-164):
COUNT(*) of waiting reservations for the book is positive. -/
def Reservation.has_active_reservations (db : DB) (book_id : String) : Bool :=
  decide (0 < db.reservations.countP (isWaitingFor book_id))

/-- Next queue position assigned by Reservation.create:
(SELECT MAX(queue_position) ... or 0) + 1.  Python's `or 0` collapses both
NULL and 0 to 0, which equals getD 0 on the optional maximum. -/
def next_queue_position (db : DB) (book_id : String) : ℤ :=
  (match max_pos_aux (waiting_positions db book_id) with
   | none => 0
   | some m => m) + 1

/-- Reservation.create (models/reservation.py lines 36-89).  new_id stands
for the generated uuid4.  The except-branch (store write failure) is outside
the fault-free model. -/
def Reservation.create (db : DB) (user_id book_id : String) (now : ℚ) (new_id : String) :
    DB × Option Reservation × String :=
  match Book.get_by_id db book_id with
  | none => (db, none, "Book not found")
  | some book =>
    if 0 < book.available_copies then
      (db, none, "Book is available for immediate borrowing")
    else if db.reservations.any (fun r => r.user_id == user_id && r.book_id == book_id && r.status == "waiting") then
      (db, none, "You already have a reservation for this book")
    else
      let res : Reservation :=
        { id := new_id, user_id := user_id, book_id := book_id,
          reservation_date := now, status := "waiting",
          notified_date := none, hold_until := none,
          queue_position := next_queue_position db book_id }
      let db1 : DB := { db with reservations := db.reservations ++ [res] }
      (db1, Reservation.get_by_id db1 new_id, "Book reserved successfully")

/-- Reservation.mark_ready (models/reservation.py lines 189-237).  The UPDATE
and the notification INSERT share one try/except: when the notification sink
raises (notif_fails), the whole transaction is rolled back and the method
reports failure; otherwise the transition commits.  When the book row is
missing the notification is skipped and the transition still commits. -/
def Reservation.mark_ready (db : DB) (res : Reservation) (hold_hours : ℚ) (now : ℚ)
    (notif_fails : Bool) : DB × Bool × String :=
  if res.status == "waiting" then
    let hold_until := now + hold_hours * 3600
    let notified_date := now
    let res2 :=
      { res with
        status := "ready"
        notified_date := some notified_date
        hold_until := some hold_until }
    let db1 := db.updateReservation res2
    match Book.get_by_id db res.book_id with
    | some _book =>
        if notif_fails then
          (db, false, "Failed to mark reservation as ready")
        else
          (SystemLog.add db1 "Reservation Ready" "" "info" (some res.user_id), true,
           "Reservation marked as ready and notification sent")
    | none => (db1, true, "Reservation marked as ready and notification sent")
  else
    (db, false, "Only waiting reservations can be marked ready")

/-- Reservation.cancel (models/reservation.py lines 239-323).  The waiting
branch re-packs the positions above the cancelled one; the ready branch
cascades to the next waiting reservation and only releases to the public
pool when there is none or the cascade failed.  A failing cascade
(mark_ready raising on the notification) rolls the shared sqlite
transaction back, which also undoes the cancellation UPDATE issued just
before; the fallback then commits only the availability increment computed
from the stale in-memory book object. -/
def Reservation.cancel (db : DB) (res : Reservation) (now : ℚ) (notif_fails : Bool) :
    DB × Bool × String :=
  if res.status == "waiting" || res.status == "ready" then
    match Book.get_by_id db res.book_id with
    | none => (db, false, "Book not found")
    | some book =>
      let was_ready := res.status == "ready"
      let res2 := { res with status := "cancelled" }
      let db1 := db.updateReservation res2
      if was_ready then
        match Reservation.get_next_in_queue db1 res.book_id with
        | some next_reservation =>
            let r := Reservation.mark_ready db1 next_reservation 48 now notif_fails
            if r.2.1 then
              (SystemLog.add r.1 "Hidden Inventory Cascade" "" "info" none, true,
               "Reservation cancelled successfully")
            else
              ((Book.update_available_copies db book 1).1, true,
               "Reservation cancelled successfully")
        | none =>
            ((Book.update_available_copies db1 book 1).1, true,
             "Reservation cancelled successfully")
      else
        let db2 : DB :=
          { db1 with reservations := db1.reservations.map (fun r =>
              if r.book_id == res.book_id && r.status == "waiting" &&
                  decide (res.queue_position < r.queue_position) then
                { r with queue_position := r.queue_position - 1 }
              else r) }
        (db2, true, "Reservation cancelled successfully")
  else
    (db, false, "Only waiting or ready reservations can be cancelled")

/-- Reservation.mark_expired (models/reservation.py lines 325-384): the same
cascade as cancelling a ready reservation, with target status expired. -/
def Reservation.mark_expired (db : DB) (res : Reservation) (now : ℚ) (notif_fails : Bool) :
    DB × Bool × String :=
  if res.status == "ready" then
    match Book.get_by_id db res.book_id with
    | none => (db, false, "Book not found")
    | some book =>
      let res2 := { res with status := "expired" }
      let db1 := db.updateReservation res2
      match Reservation.get_next_in_queue db1 res.book_id with
      | some next_reservation =>
          let r := Reservation.mark_ready db1 next_reservation 48 now notif_fails
          if r.2.1 then
            (SystemLog.add r.1 "Expired Reservation Cascade" "" "info" none, true,
             "Reservation marked as expired")
          else
            ((Book.update_available_copies db book 1).1, true,
             "Reservation marked as expired")
      | none =>
          ((Book.update_available_copies db1 book 1).1, true,
           "Reservation marked as expired")
  else
    (db, false, "Only ready reservations can expire")

/-- Reservation.complete (models/reservation.py lines 386-416): ready to
completed, inventory untouched. -/
def Reservation.complete (db : DB) (res : Reservation) : DB × Bool × String :=
  if res.status == "ready" then
    let res2 := { res with status := "completed" }
    (db.updateReservation res2, true, "Reservation completed")
  else
    (db, false, "Only ready reservations can be completed")

/-- User.add_fine (models/user.py lines 255-264). -/
def User.add_fine (db : DB) (u : User) (amount : ℚ) : DB × User :=
  let u2 := { u with fines := u.fines + amount }
  (db.updateUser u2, u2)

/-- User.add_fine_record, alias add_violation (models/user.py lines 277-296):
it increments violations and commits, then evaluates
Config.MAX_VIOLATIONS_BEFORE_LOCK — an attribute config/config.py never
defines — so Python raises AttributeError after the commit.  The raise is
embedded as the Except.error value. -/
def User.add_fine_record (db : DB) (u : User) : DB × Except String Unit :=
  let u2 := { u with violations := u.violations + 1 }
  (db.updateUser u2,
   Except.error "AttributeError: Config.MAX_VIOLATIONS_BEFORE_LOCK is not defined")

/-- User.pay_fine (models/user.py lines 266-275): the balance becomes
max(0, fines - amount) and is persisted. -/
def User.pay_fine (db : DB) (u : User) (amount : ℚ) : DB × User :=
  let u2 := { u with fines := max 0 (u.fines - amount) }
  (db.updateUser u2, u2)

/-- Borrow.get_active_borrows (models/borrow.py lines 138-153): borrows of
the user whose status is borrowed or pending_pickup. -/
def Borrow.get_active_borrows (db : DB) (user_id : String) : List Borrow :=
  db.borrows.filter (fun b =>
    b.user_id == user_id && (b.status == "borrowed" || b.status == "pending_pickup"))

/-- Borrow.create (models/borrow.py lines 227-320): validations (book found,
available_copies positive, borrow limit, duplicate active borrow, unpaid
fines), then INSERT of the pending_pickup row, immediate availability
decrement and borrow-count increment.  new_id stands for the generated
uuid4; the except-branch (store write failure) is outside the fault-free
model. -/
def Borrow.create (db : DB) (user_id book_id : String) (now : ℚ) (new_id : String) :
    DB × Option Borrow × String :=
  match Book.get_by_id db book_id with
  | none => (db, none, "Book not found")
  | some book =>
    if book.available_copies ≤ 0 then
      (db, none, "Book is not available. Please reserve it instead.")
    else
      let active_borrows := Borrow.get_active_borrows db user_id
      if Config.MAX_BORROW_LIMIT ≤ active_borrows.length then
        (db, none, "You have reached the maximum borrow limit")
      else if active_borrows.any (fun b => b.book_id == book_id) then
        (db, none, "You have already borrowed or requested this book")
      else if (match User.get_by_id db user_id with
               | some u => decide (0 < u.fines)
               | none => false) then
        (db, none, "Please pay your outstanding fine before borrowing")
      else
        let pending_until := now + Config.PENDING_PICKUP_HOURS * 3600
        let estimated_due_date := now + Config.BORROW_DURATION_DAYS * 86400
        let bor : Borrow :=
          { id := new_id, user_id := user_id, book_id := book_id,
            borrow_date := now, due_date := estimated_due_date,
            return_date := none, status := "pending_pickup",
            renewed_count := 0, pending_until := some pending_until,
            condition := none, damage_fee := 0, late_fee := 0 }
        let db1 : DB := { db with borrows := db.borrows ++ [bor] }
        let r1 := Book.update_available_copies db1 book (-1)
        let r2 := Book.increment_borrow_count r1.1 r1.2
        let db3 := SystemLog.add r2.1 "Book Hold Created" "" "info" (some user_id)
        (db3, Borrow.get_by_id db3 new_id,
         "Book reserved! Please pick it up within 48 hours")

/-- The reservation check at the end of Borrow.return_book and Borrow.cancel
(models/borrow.py lines 455-459 and 552-557): when the book has waiting
reservations, mark the next one ready with a 48 hour hold. -/
def Borrow.notify_next_reservation (db : DB) (book_id : String) (now : ℚ)
    (notif_fails : Bool) : DB :=
  if Reservation.has_active_reservations db book_id then
    match Reservation.get_next_in_queue db book_id with
    | some next_reservation =>
        (Reservation.mark_ready db next_reservation 48 now notif_fails).1
    | none => db
  else db

/-- Borrow.return_book (models/borrow.py lines 401-470): computes both fees,
persists the returned row, always releases one copy to the public pool via
update_available_copies (which commits), then applies fines, commits, and
finally promotes the next waiting reservation if any.  When the total fee is
positive, add_violation (User.add_fine_record) raises AttributeError after
the fine and violation writes committed; the exception propagates out of
return_book, so the reservation check is never reached on that path.  The
committed state at the moment of the raise is returned with the error. -/
def Borrow.return_book (db : DB) (bor : Borrow) (now : ℚ) (condition : String)
    (book_value : ℚ) (notif_fails : Bool) : DB × Except String (Bool × String) :=
  if bor.status == "borrowed" then
    let late_fee := Borrow.calculate_late_fee bor.due_date now
    let damage_fee := Borrow.calculate_damage_fee condition book_value
    let bor2 :=
      { bor with
        status := "returned"
        return_date := some now
        condition := some condition
        late_fee := late_fee
        damage_fee := damage_fee }
    let db1 := DB.updateBorrow db bor2
    let db2 :=
      match Book.get_by_id db1 bor.book_id with
      | some book => (Book.update_available_copies db1 book 1).1
      | none => db1
    let total_fine := late_fee + damage_fee
    if 0 < total_fine then
      match User.get_by_id db2 bor.user_id with
      | some user =>
          let r1 := User.add_fine db2 user total_fine
          let r2 := User.add_fine_record r1.1 r1.2
          match r2.2 with
          | Except.error msg => (r2.1, Except.error msg)
          | Except.ok _ =>
              (SystemLog.add (Borrow.notify_next_reservation r2.1 bor.book_id now notif_fails)
                 "Book Returned" "" "info" (some bor.user_id),
               Except.ok (true, "Book returned"))
      | none =>
          (SystemLog.add (Borrow.notify_next_reservation db2 bor.book_id now notif_fails)
             "Book Returned" "" "info" (some bor.user_id),
           Except.ok (true, "Book returned"))
    else
      (SystemLog.add (Borrow.notify_next_reservation db2 bor.book_id now notif_fails)
         "Book Returned" "" "info" (some bor.user_id),
       Except.ok (true, "Book returned"))
  else
    (db, Except.ok (false, "Only borrowed books can be returned"))

/-- Borrow.cancel (models/borrow.py lines 530-559): pending_pickup to
cancelled, always releases one copy to the public pool, commits, then
promotes the next waiting reservation if any. -/
def Borrow.cancel (db : DB) (bor : Borrow) (now : ℚ) (notif_fails : Bool) :
    DB × Bool × String :=
  if bor.status == "pending_pickup" then
    let bor2 := { bor with status := "cancelled" }
    let db1 := DB.updateBorrow db bor2
    let db2 :=
      match Book.get_by_id db1 bor.book_id with
      | some book => (Book.update_available_copies db1 book 1).1
      | none => db1
    let db3 := Borrow.notify_next_reservation db2 bor.book_id now notif_fails
    (db3, true, "Borrow request cancelled")
  else
    (db, false, "Only pending pickup requests can be cancelled")

/-- The reservation-absorbing loop of Book.update_fields (models/book.py
lines 337-348): for each added copy, hand one copy to the next waiting
reservation via mark_ready, counting successes, until the queue is empty.
The loop does not break on a failed mark_ready (it only skips the count). -/
def absorb_loop (db : DB) (book_id : String) (now : ℚ) : Nat → DB × Nat
  | 0 => (db, 0)
  | n + 1 =>
      match Reservation.get_next_in_queue db book_id with
      | none => (db, 0)
      | some next_res =>
          let r := Reservation.mark_ready db next_res 48 now false
          let rest := absorb_loop r.1 book_id now n
          (rest.1, (if r.2.1 then 1 else 0) + rest.2)

/-- Book.update_fields (models/book.py lines 303-392) restricted to an
update whose kwargs contain only available_copies (the path the inventory
claims are about).  When copies are added, the intercept first absorbs them
into waiting reservations, then the standard update writes the remaining
target value directly into the row — with no clamping against
[0, total_copies]. -/
def Book.update_fields_available (db : DB) (book : Book) (target : ℤ) (now : ℚ) :
    DB × Bool × String :=
  let current_copies := book.available_copies
  let added_copies := target - current_copies
  let r :=
    if 0 < added_copies then
      let a := absorb_loop db book.id now added_copies.toNat
      if 0 < a.2 then (a.1, target - (a.2 : ℤ)) else (a.1, target)
    else (db, target)
  let db2 := r.1.updateBook { book with available_copies := r.2 }
  (db2, true, "Book updated successfully")

/-- Borrow.auto_cancel_expired_pickups (models/borrow.py lines 561-587):
cancel every pending_pickup borrow whose pending_until deadline has passed. -/
def Borrow.auto_cancel_expired_pickups (db : DB) (now : ℚ) : DB × Nat :=
  let expired := db.borrows.filter (fun b =>
    b.status == "pending_pickup" &&
      (match b.pending_until with
       | some d => decide (d < now)
       | none => false))
  expired.foldl (fun acc b =>
    match Borrow.get_by_id acc.1 b.id with
    | some bor =>
        let r := Borrow.cancel acc.1 bor now false
        (r.1, acc.2 + (if r.2.1 then 1 else 0))
    | none => acc) (db, 0)

/-- The invariant exactly as claim C3 states it: the waiting queue positions
of one book form the contiguous sequence 1..N with no gaps and no
duplicates (each position in [1, N] occurs exactly once, nothing else
occurs). -/
def QueueOneToN (db : DB) (book_id : String) : Prop :=
  ∀ q : ℤ, (waiting_positions db book_id).count q =
    if 1 ≤ q ∧ q ≤ (waiting_positions db book_id).length then 1 else 0

/-- The repaired invariant: the waiting queue positions of one book form a
contiguous run of consecutive integers starting at some positive p0 (each
position in [p0, p0 + N) occurs exactly once, nothing else occurs). -/
def QueueContiguousRun (db : DB) (book_id : String) : Prop :=
  ∃ p0 : ℤ, 1 ≤ p0 ∧
    ∀ q : ℤ, (waiting_positions db book_id).count q =
      if p0 ≤ q ∧ q < p0 + (waiting_positions db book_id).length then 1 else 0

/-- The bound of claim C4 on one book row. -/
def BookInBounds (b : Book) : Prop :=
  0 ≤ b.available_copies ∧ b.available_copies ≤ b.total_copies

/-- A book with one copy, all of it out (nothing publicly available). -/
def bookB1 : Book := { id := "b1", total_copies := 1, available_copies := 0, borrow_count := 0 }

/-- A regular user with no fines. -/
def userU1 : User := { id := "u1", is_locked := false, fines := 0, violations := 0 }

/-- A second regular user with no fines. -/
def userU2 : User := { id := "u2", is_locked := false, fines := 0, violations := 0 }

/-- The sole copy of b1, borrowed by u1 and due at time 1000. -/
def borL1 : Borrow :=
  { id := "L1", user_id := "u1", book_id := "b1", borrow_date := 0, due_date := 1000,
    return_date := none, status := "borrowed", renewed_count := 0, pending_until := none,
    condition := none, damage_fee := 0, late_fee := 0 }

/-- A waiting reservation of u2 for b1 at queue position 1. -/
def resW1 : Reservation :=
  { id := "r1", user_id := "u2", book_id := "b1", reservation_date := 0,
    status := "waiting", notified_date := none, hold_until := none, queue_position := 1 }

/-- A ready reservation of u1 for b1 whose hold deadline (time 172800) has
not passed at the times used below. -/
def resReadyU1 : Reservation :=
  { id := "r1", user_id := "u1", book_id := "b1", reservation_date := 0,
    status := "ready", notified_date := some 0, hold_until := some 172800,
    queue_position := 1 }

/-- State for claim C1: b1 fully borrowed by u1, u2 waiting in the queue. -/
def dbC1 : DB := { books := [bookB1], users := [userU1, userU2], borrows := [borL1], reservations := [resW1] }

/-- The on-time, good-condition return of the sole borrowed copy of b1 in
dbC1 (return at time 500, before the due time 1000). -/
def outC1 : DB × Except String (Bool × String) :=
  Borrow.return_book dbC1 borL1 500 "good" 0 false

/-- State for claim C2: u1 holds a ready, unexpired reservation for b1 and
b1 has no public availability. -/
def dbC2 : DB := { books := [bookB1], users := [userU1], borrows := [], reservations := [resReadyU1] }

/-- u1 requesting b1 in dbC2 at time 100 (well before the hold deadline). -/
def outC2 : DB × Option Borrow × String := Borrow.create dbC2 "u1" "b1" 100 "L9"

/-- The sole copy of b1 borrowed by u1, due at time 0. -/
def borL6 : Borrow :=
  { id := "L6", user_id := "u1", book_id := "b1", borrow_date := 0, due_date := 0,
    return_date := none, status := "borrowed", renewed_count := 0, pending_until := none,
    condition := none, damage_fee := 0, late_fee := 0 }

/-- State for claim C6: a borrowed loan of u1 on b1 and no reservations. -/
def dbC6 : DB := { books := [bookB1], users := [userU1], borrows := [borL6], reservations := [] }

/-- Returning that loan on time but lost, with book value 100000, so the
total fee 120000 is positive and the fine/violation path runs. -/
def outC6 : DB × Except String (Bool × String) :=
  Borrow.return_book dbC6 borL6 0 "lost" 100000 false

/-- Empty-queue starting state used for the claim C3 scenario. -/
def dbQ0 : DB := { books := [bookB1], users := [userU1, userU2], borrows := [], reservations := [] }

/-- dbQ0 after u1 enqueues for b1 (reservation r1, position 1). -/
def dbQ1 : DB := (Reservation.create dbQ0 "u1" "b1" 0 "r1").1

/-- dbQ1 after u2 enqueues for b1 (reservation r2, position 2). -/
def dbQ2 : DB := (Reservation.create dbQ1 "u2" "b1" 0 "r2").1

/-- dbQ2 after the head of the queue is marked ready (the cascade callers
always apply mark_ready to get_next_in_queue). -/
def dbQ3 : DB :=
  match Reservation.get_next_in_queue dbQ2 "b1" with
  | some r => (Reservation.mark_ready dbQ2 r 48 0 false).1
  | none => dbQ2

/-- The reservation row created by the first enqueue in dbQ0 (position 1). -/
def resQ1 : Reservation :=
  { id := "r1", user_id := "u1", book_id := "b1", reservation_date := 0,
    status := "waiting", notified_date := none, hold_until := none, queue_position := 1 }

/-- A book whose five copies are all publicly available. -/
def bookC4 : Book := { id := "b1", total_copies := 5, available_copies := 5, borrow_count := 0 }

/-- State for claim C4: just that book, no reservations. -/
def dbC4 : DB := { books := [bookC4], users := [], borrows := [], reservations := [] }

/-- An admin edit setting available_copies to 10 although total_copies is 5. -/
def outC4 : DB × Bool × String := Book.update_fields_available dbC4 bookC4 10 0

/-- The out-of-bounds row that edit writes. -/
def bookC4bad : Book := { id := "b1", total_copies := 5, available_copies := 10, borrow_count := 0 }

/-- u1 enqueueing for b1 in dbC2, where u1 already holds a ready reservation
for b1 (claim C7 says this must be rejected). -/
def outC7 : DB × Option Reservation × String := Reservation.create dbC2 "u1" "b1" 5 "r9"

/-- State for claim C8: u2 waiting for b1 (which exists). -/
def dbC8 : DB := { books := [bookB1], users := [userU2], borrows := [], reservations := [resW1] }

/-- mark_ready on that waiting reservation while the notification sink
raises. -/
def outC8 : DB × Bool × String := Reservation.mark_ready dbC8 resW1 48 0 true

/-- A user with an outstanding fine of 500, used to exercise pay_fine. -/
def userFined : User := { id := "u3", is_locked := false, fines := 500, violations := 0 }

/-- State holding only that user. -/
def dbPay : DB := { books := [], users := [userFined], borrows := [], reservations := [] }

theorem pyround_eq_ceil (q : ℚ) (hq : 0 < q) :
    pythonInt q + (if 0 < pythonMod1 q then 1 else 0) = ⌈q⌉ := by
  have h0 : 0 ≤ q := le_of_lt hq
  rw [pythonInt, if_pos h0, pythonMod1]
  rcases eq_or_lt_of_le (sub_nonneg.mpr (Int.floor_le q)) with h | h
  · have hq2 : ((⌊q⌋ : ℤ) : ℚ) = q := by linarith
    have hceil : ⌈q⌉ = ⌊q⌋ := by
      rw [Int.ceil_eq_iff]
      constructor
      · have := Int.floor_le q
        linarith
      · linarith
    rw [if_neg (by rw [← h]; exact lt_irrefl 0), hceil, add_zero]
  · rw [if_pos h]
    symm
    rw [Int.ceil_eq_iff]
    constructor
    · push_cast
      linarith
    · push_cast
      have := Int.lt_floor_add_one q
      linarith

theorem find_cons_true {α : Type} (p : α → Bool) (a : α) (t : List α) (h : p a = true) :
    (a :: t).find? p = some a := by
  simp [List.find?, h]

theorem find_cons_false {α : Type} (p : α → Bool) (a : α) (t : List α) (h : p a = false) :
    (a :: t).find? p = t.find? p := by
  simp [List.find?, h]

theorem find_update_first {α : Type} (idf : α → String) (l : List α) (i : String) (y x : α)
    (hx : l.find? (fun r => idf r == i) = some x) (hy : idf y = i) :
    (l.map (fun r => if idf r == i then y else r)).find? (fun r => idf r == i) = some y := by
  induction l with
  | nil => simp at hx
  | cons a t ih =>
    by_cases h : (idf a == i) = true
    · simp only [List.map_cons, if_pos h]
      exact find_cons_true (fun r => idf r == i) y _ (beq_iff_eq.mpr hy)
    · have e : (idf a == i) = false := Bool.eq_false_iff.mpr h
      rw [find_cons_false (fun r => idf r == i) a t e] at hx
      simp only [List.map_cons, if_neg h]
      rw [find_cons_false (fun r => idf r == i) a _ e]
      exact ih hx

/-- Claim C5 (confirmed): calculate_late_fee returns 0 when returned is at
or before due, returns 0 when the delay in minutes is within the grace
period (default 60), and otherwise charges ceil(effective hours) times the
hourly rate when the effective delay is under 24 hours and ceil(effective
days) times the daily rate otherwise; in particular a 90 minute delay
costs one hourly rate and a 30 hour delay costs two daily rates. -/
theorem C5_late_fee_formula :
    (∀ due ret : ℚ, Borrow.calculate_late_fee due ret = lateFeeSpec due ret) ∧
    (∀ due : ℚ, Borrow.calculate_late_fee due due = 0) ∧
    (∀ due : ℚ, Borrow.calculate_late_fee due (due + 30 * 60) = 0) ∧
    (∀ due : ℚ, Borrow.calculate_late_fee due (due + 90 * 60) = 1 * Config.LATE_FEE_HOURLY) ∧
    (∀ due : ℚ, Borrow.calculate_late_fee due (due + 30 * 3600) = 2 * Config.LATE_FEE_DAILY) := by
  have main : ∀ due ret : ℚ, Borrow.calculate_late_fee due ret = lateFeeSpec due ret := by
    intro due ret
    simp only [Borrow.calculate_late_fee, lateFeeSpec]
    by_cases h1 : ret ≤ due
    · rw [if_pos h1, if_pos h1]
    rw [if_neg h1, if_neg h1]
    by_cases h2 : (ret - due) / 60 ≤ Config.GRACE_PERIOD_MINUTES
    · rw [if_pos h2, if_pos h2]
    rw [if_neg h2, if_neg h2]
    have hE : 0 < (ret - due) / 60 - Config.GRACE_PERIOD_MINUTES := by
      push_neg at h2
      linarith
    by_cases h3 : ((ret - due) / 60 - Config.GRACE_PERIOD_MINUTES) / 60 < 24
    · have h3m : (ret - due) / 60 - Config.GRACE_PERIOD_MINUTES < 24 * 60 := by
        have := (div_lt_iff₀ (by norm_num : (0 : ℚ) < 60)).mp h3
        linarith
      rw [if_pos h3, if_pos h3m,
        pyround_eq_ceil _ (by positivity)]
    · have h3m : ¬ ((ret - due) / 60 - Config.GRACE_PERIOD_MINUTES < 24 * 60) := by
        push_neg at h3 ⊢
        have h4 := mul_le_mul_of_nonneg_right h3 (by norm_num : (0 : ℚ) ≤ 60)
        rw [div_mul_cancel₀ _ (by norm_num : (60 : ℚ) ≠ 0)] at h4
        linarith
      rw [if_neg h3, if_neg h3m]
      have hdd : ((ret - due) / 60 - Config.GRACE_PERIOD_MINUTES) / 60 / 24
          = ((ret - due) / 60 - Config.GRACE_PERIOD_MINUTES) / (24 * 60) := by
        rw [div_div]
        ring_nf
      rw [hdd, pyround_eq_ceil _ (by positivity)]
  refine ⟨main, ?_, ?_, ?_, ?_⟩
  · intro due
    rw [main, lateFeeSpec]
    simp
  · intro due
    have h1 : ¬ (due + 30 * 60 ≤ due) := by linarith
    have e : due + 30 * 60 - due = 1800 := by ring
    rw [main]
    simp only [lateFeeSpec, if_neg h1, e]
    norm_num [Config.GRACE_PERIOD_MINUTES]
  · intro due
    have h1 : ¬ (due + 90 * 60 ≤ due) := by linarith
    have e : due + 90 * 60 - due = 5400 := by ring
    have hc : ⌈(1 : ℚ) / 2⌉ = 1 := by
      rw [Int.ceil_eq_iff]
      norm_num
    rw [main]
    simp only [lateFeeSpec, if_neg h1, e]
    norm_num [Config.GRACE_PERIOD_MINUTES, Config.LATE_FEE_HOURLY, hc]
  · intro due
    have h1 : ¬ (due + 30 * 3600 ≤ due) := by linarith
    have e : due + 30 * 3600 - due = 108000 := by ring
    have hc : ⌈(29 : ℚ) / 24⌉ = 2 := by
      rw [Int.ceil_eq_iff]
      norm_num
    rw [main]
    simp only [lateFeeSpec, if_neg h1, e]
    norm_num [Config.GRACE_PERIOD_MINUTES, Config.LATE_FEE_DAILY, hc]

/-- Claim C9 (confirmed): calculate_damage_fee returns 0 for good, 20
percent of the value for minor damage, value plus the 15000 surcharge for
major damage, value plus the 20000 surcharge for lost, 0 for any
unrecognized condition, and 120000 for a lost book of value 100000. -/
theorem C9_damage_fee_formula :
    (∀ v : ℚ, Borrow.calculate_damage_fee "good" v = 0) ∧
    (∀ v : ℚ, Borrow.calculate_damage_fee "minor_damage" v = v * 0.20) ∧
    (∀ v : ℚ, Borrow.calculate_damage_fee "major_damage" v = v + 15000) ∧
    (∀ v : ℚ, Borrow.calculate_damage_fee "lost" v = v + 20000) ∧
    (∀ (c : String) (v : ℚ), c ≠ "good" → c ≠ "minor_damage" → c ≠ "major_damage" →
      c ≠ "lost" → Borrow.calculate_damage_fee c v = 0) ∧
    Borrow.calculate_damage_fee "lost" 100000 = 120000 := by
  have hlost : Borrow.calculate_damage_fee "lost" 100000 = 120000 := by
    have h1 : ¬ (("lost" : String) = "good") := by decide
    have h2 : ¬ (("lost" : String) = "minor_damage") := by decide
    have h3 : ¬ (("lost" : String) = "major_damage") := by decide
    norm_num [Borrow.calculate_damage_fee, h1, h2, h3]
  refine ⟨fun v => rfl, fun v => rfl, fun v => rfl, fun v => rfl, ?_, hlost⟩
  intro c v h1 h2 h3 h4
  simp [Borrow.calculate_damage_fee, h1, h2, h3, h4]

/-- Witness for C9 at the unrecognized condition string "soaked". -/
theorem C9_damage_fee_witness : Borrow.calculate_damage_fee "soaked" 500 = 0 :=
  C9_damage_fee_formula.2.2.2.2.1 "soaked" 500 (by decide) (by decide) (by decide) (by decide)

/-- Claim C10 (confirmed): pay_fine leaves the balance at
max(0, fines - amount), never negative, exactly 0 on overpayment, and the
persisted row agrees with the returned user object. -/
theorem C10_pay_fine_clamps :
    ∀ (db : DB) (u : User) (amount : ℚ),
      (User.pay_fine db u amount).2.fines = max 0 (u.fines - amount) ∧
      0 ≤ (User.pay_fine db u amount).2.fines ∧
      (u.fines ≤ amount → (User.pay_fine db u amount).2.fines = 0) ∧
      (User.get_by_id db u.id = some u →
        User.get_by_id (User.pay_fine db u amount).1 u.id = some (User.pay_fine db u amount).2) := by
  intro db u amount
  refine ⟨rfl, le_max_left _ _, ?_, ?_⟩
  · intro h
    show max 0 (u.fines - amount) = 0
    exact max_eq_left (by linarith)
  · intro h
    have h2 : db.users.find? (fun r => r.id == u.id) = some u := h
    exact find_update_first (fun r => r.id) db.users u.id
      { u with fines := max 0 (u.fines - amount) } u h2 rfl

/-- Witness for C10: overpaying a 500 fine with 800 clamps the stored and
returned balance to exactly 0. -/
theorem C10_pay_fine_witness :
    (User.pay_fine dbPay userFined 800).2.fines = 0 ∧
    User.get_by_id (User.pay_fine dbPay userFined 800).1 userFined.id =
      some (User.pay_fine dbPay userFined 800).2 := by
  have h := C10_pay_fine_clamps dbPay userFined 800
  exact ⟨h.2.2.1 (by norm_num [userFined]), h.2.2.2 rfl⟩

theorem count_waiting (db : DB) (bid : String) (q : ℤ) :
    (waiting_positions db bid).count q =
      db.reservations.countP (fun r => r.queue_position == q && isWaitingFor bid r) := by
  rw [waiting_positions, List.count_eq_countP, List.countP_map, List.countP_filter]
  rfl

theorem length_waiting (db : DB) (bid : String) :
    (waiting_positions db bid).length = db.reservations.countP (isWaitingFor bid) := by
  rw [waiting_positions, List.length_map, ← List.countP_eq_length_filter]

theorem countP_not_id (l : List Reservation) (t : Reservation) (p : Reservation → Bool)
    (hmem : t ∈ l) (hids : (l.map (fun r => r.id)).Nodup) :
    l.countP (fun r => !(r.id == t.id) && p r) + (if p t then 1 else 0) = l.countP p := by
  induction l with
  | nil => simp at hmem
  | cons a tl ih =>
    rw [List.map_cons, List.nodup_cons] at hids
    obtain ⟨hna, hnd⟩ := hids
    rcases List.mem_cons.mp hmem with rfl | hmem2
    · have e2 : tl.countP (fun r => !(r.id == t.id) && p r) = tl.countP p := by
        apply List.countP_congr
        intro x hx
        have hne : x.id ≠ t.id := fun he => hna (he ▸ List.mem_map_of_mem _ hx)
        simp [hne]
      rw [List.countP_cons, List.countP_cons, e2]
      simp
    · have hne : (a.id == t.id) = false := by
        apply Bool.eq_false_iff.mpr
        intro he
        exact hna (beq_iff_eq.mp he ▸ List.mem_map_of_mem _ hmem2)
      have ihh := ih hmem2 hnd
      rw [List.countP_cons, List.countP_cons]
      have e3 : (!(a.id == t.id) && p a) = p a := by rw [hne]; simp
      rw [e3]
      omega

theorem countP_or_disj (l : List Reservation) (p q : Reservation → Bool)
    (h : ∀ r, ¬(p r = true ∧ q r = true)) :
    l.countP (fun r => p r || q r) = l.countP p + l.countP q := by
  induction l with
  | nil => simp
  | cons a t ih =>
    rw [List.countP_cons, List.countP_cons, List.countP_cons, ih]
    cases hp : p a
    · simp [hp]
      omega
    · cases hq : q a
      · simp [hp, hq]
        omega
      · exact absurd ⟨hp, hq⟩ (h a)

theorem next_in_queue_aux_none (l : List Reservation) :
    next_in_queue_aux l = none ↔ l = [] := by
  cases l with
  | nil => simp [next_in_queue_aux]
  | cons a t =>
    cases ht : next_in_queue_aux t with
    | none => simp [next_in_queue_aux, ht]
    | some m =>
      simp only [next_in_queue_aux, ht]
      refine ⟨fun h => ?_, fun h => by simp at h⟩
      split at h <;> simp at h

theorem next_in_queue_aux_spec (l : List Reservation) (r : Reservation)
    (h : next_in_queue_aux l = some r) :
    r ∈ l ∧ ∀ x ∈ l, r.queue_position ≤ x.queue_position := by
  induction l generalizing r with
  | nil => simp [next_in_queue_aux] at h
  | cons a t ih =>
    cases ht : next_in_queue_aux t with
    | none =>
      simp only [next_in_queue_aux, ht, Option.some.injEq] at h
      have ht2 : t = [] := (next_in_queue_aux_none t).mp ht
      subst ht2
      subst h
      refine ⟨List.mem_singleton.mpr rfl, ?_⟩
      intro x hx
      rw [List.mem_singleton.mp hx]
    | some m =>
      simp only [next_in_queue_aux, ht] at h
      obtain ⟨hm, hmin⟩ := ih m ht
      by_cases hle : a.queue_position ≤ m.queue_position
      · rw [if_pos hle] at h
        simp only [Option.some.injEq] at h
        subst h
        refine ⟨List.mem_cons_self a t, ?_⟩
        intro x hx
        rcases List.mem_cons.mp hx with rfl | hx2
        · exact le_refl _
        · exact le_trans hle (hmin x hx2)
      · rw [if_neg hle] at h
        simp only [Option.some.injEq] at h
        subst h
        refine ⟨List.mem_cons_of_mem a hm, ?_⟩
        intro x hx
        rcases List.mem_cons.mp hx with rfl | hx2
        · exact le_of_lt (lt_of_not_le hle)
        · exact hmin x hx2

theorem max_pos_aux_none (l : List ℤ) : max_pos_aux l = none ↔ l = [] := by
  cases l with
  | nil => simp [max_pos_aux]
  | cons a t =>
    cases ht : max_pos_aux t with
    | none => simp [max_pos_aux, ht]
    | some m => simp [max_pos_aux, ht]

theorem max_pos_aux_spec (l : List ℤ) (m : ℤ) (h : max_pos_aux l = some m) :
    m ∈ l ∧ ∀ x ∈ l, x ≤ m := by
  induction l generalizing m with
  | nil => simp [max_pos_aux] at h
  | cons a t ih =>
    cases ht : max_pos_aux t with
    | none =>
      simp only [max_pos_aux, ht, Option.some.injEq] at h
      have ht2 : t = [] := (max_pos_aux_none t).mp ht
      subst ht2
      subst h
      exact ⟨List.mem_singleton.mpr rfl, by intro x hx; rw [List.mem_singleton.mp hx]⟩
    | some m2 =>
      simp only [max_pos_aux, ht, Option.some.injEq] at h
      obtain ⟨hm2, hmax⟩ := ih m2 ht
      subst h
      constructor
      · rcases max_choice a m2 with he | he
        · rw [he]; exact List.mem_cons_self a t
        · rw [he]; exact List.mem_cons_of_mem a hm2
      · intro x hx
        rcases List.mem_cons.mp hx with rfl | hx2
        · exact le_max_left _ _
        · exact le_trans (hmax x hx2) (le_max_right _ _)

theorem countP_congr_eq {α : Type} (l : List α) (p q : α → Bool)
    (h : ∀ x ∈ l, p x = q x) : l.countP p = l.countP q := by
  apply List.countP_congr
  intro x hx
  rw [h x hx]

theorem count_after_replace (db : DB) (bid : String) (res res2 : Reservation)
    (hid : res2.id = res.id) (hnw : isWaitingFor bid res2 = false)
    (hW : isWaitingFor bid res = true)
    (hmem : res ∈ db.reservations)
    (hids : (db.reservations.map (fun r => r.id)).Nodup) (q : ℤ) :
    (waiting_positions (db.updateReservation res2) bid).count q
      + (if res.queue_position = q then 1 else 0)
      = (waiting_positions db bid).count q := by
  rw [count_waiting, count_waiting]
  simp only [DB.updateReservation]
  rw [List.countP_map]
  rw [countP_congr_eq _ _
    (fun r => !(r.id == res.id) && (r.queue_position == q && isWaitingFor bid r)) ?_]
  · have h2 := countP_not_id db.reservations res
      (fun r => r.queue_position == q && isWaitingFor bid r) hmem hids
    have e : (if (res.queue_position == q && isWaitingFor bid res) = true then 1 else 0)
        = (if res.queue_position = q then 1 else 0) := by
      simp [hW, beq_iff_eq]
    rw [e] at h2
    exact h2
  · intro x _
    by_cases hx : (x.id == res2.id) = true
    · have hx2 : (x.id == res.id) = true := by rw [← hid]; exact hx
      simp [Function.comp, hx, hx2, hnw]
    · have hx2 : (x.id == res.id) = false := by
        rw [← hid]
        exact Bool.eq_false_iff.mpr hx
      simp [Function.comp, hx, hx2]

theorem length_after_replace (db : DB) (bid : String) (res res2 : Reservation)
    (hid : res2.id = res.id) (hnw : isWaitingFor bid res2 = false)
    (hW : isWaitingFor bid res = true)
    (hmem : res ∈ db.reservations)
    (hids : (db.reservations.map (fun r => r.id)).Nodup) :
    (waiting_positions (db.updateReservation res2) bid).length + 1
      = (waiting_positions db bid).length := by
  rw [length_waiting, length_waiting]
  simp only [DB.updateReservation]
  rw [List.countP_map]
  rw [countP_congr_eq _ _ (fun r => !(r.id == res.id) && isWaitingFor bid r) ?_]
  · have h2 := countP_not_id db.reservations res (isWaitingFor bid) hmem hids
    rw [if_pos hW] at h2
    exact h2
  · intro x _
    by_cases hx : (x.id == res2.id) = true
    · have hx2 : (x.id == res.id) = true := by rw [← hid]; exact hx
      simp [Function.comp, hx, hx2, hnw]
    · have hx2 : (x.id == res.id) = false := by
        rw [← hid]
        exact Bool.eq_false_iff.mpr hx
      simp [Function.comp, hx, hx2]

theorem wp_append (db : DB) (res : Reservation) (bid : String)
    (hW : isWaitingFor bid res = true) :
    waiting_positions { db with reservations := db.reservations ++ [res] } bid
      = waiting_positions db bid ++ [res.queue_position] := by
  simp [waiting_positions, List.filter_append, hW]

theorem countP_map_eq {α β : Type} (l : List α) (g : α → β) (p : β → Bool) (q : α → Bool)
    (h : ∀ x ∈ l, p (g x) = q x) : (l.map g).countP p = l.countP q := by
  induction l with
  | nil => rfl
  | cons a t ih =>
    rw [List.map_cons, List.countP_cons, List.countP_cons, h a (List.mem_cons_self a t),
      ih (fun x hx => h x (List.mem_cons_of_mem a hx))]

theorem cancel_waiting_reduces (db : DB) (res : Reservation) (now : ℚ) (nf : Bool) (book : Book)
    (hst : res.status = "waiting") (hbook : Book.get_by_id db res.book_id = some book) :
    Reservation.cancel db res now nf =
      ({ db with reservations :=
          (List.map
            (fun r => if r.book_id == res.book_id && r.status == "waiting" &&
                decide (res.queue_position < r.queue_position) then
                { r with queue_position := r.queue_position - 1 } else r)
            (List.map
              (fun x => if x.id == res.id then { res with status := "cancelled" } else x)
              db.reservations)) },
       true, "Reservation cancelled successfully") := by
  have h0 : (res.status == "waiting") = true := by simp [hst]
  have h2 : (res.status == "ready") = false := by simp [hst]
  simp only [Reservation.cancel, h0, h2, Bool.or_false, if_true, Bool.false_eq_true, if_false,
    hbook, DB.updateReservation]

theorem cancel_pointwise (res : Reservation) (bid : String) (hsw : (("cancelled" : String) == "waiting") = false)
    (hbid : res.book_id = bid) (q : ℤ) (x : Reservation) :
    ((fun r => r.queue_position == q && isWaitingFor bid r)
      ((fun r => if r.book_id == res.book_id && r.status == "waiting" &&
          decide (res.queue_position < r.queue_position) then
          { r with queue_position := r.queue_position - 1 } else r)
        ((fun y => if y.id == res.id then { res with status := "cancelled" } else y) x)))
    = (!(x.id == res.id) &&
       ((x.queue_position == q + 1 && isWaitingFor bid x &&
           decide (res.queue_position < x.queue_position)) ||
        (x.queue_position == q && isWaitingFor bid x &&
           !(decide (res.queue_position < x.queue_position))))) := by
  by_cases hx : (x.id == res.id) = true
  · simp [hx, hsw, isWaitingFor]
  · have hxf : (x.id == res.id) = false := Bool.eq_false_iff.mpr hx
    simp only [hxf, Bool.false_eq_true, if_false, Bool.not_false, Bool.true_and]
    by_cases hwb : isWaitingFor bid x = true
    · have hw2 := hwb
      rw [isWaitingFor, Bool.and_eq_true] at hw2
      obtain ⟨hb2, hs2⟩ := hw2
      have hb3 : (x.book_id == res.book_id) = true := by rw [hbid]; exact hb2
      by_cases hd : res.queue_position < x.queue_position
      · have hdec : decide (res.queue_position < x.queue_position) = true := decide_eq_true hd
        have e4 : isWaitingFor bid { x with queue_position := x.queue_position - 1 }
            = isWaitingFor bid x := by
          simp [isWaitingFor]
        simp only [hb3, hs2, hdec, Bool.and_self, Bool.true_and, Bool.and_true, if_true, e4,
          hwb, Bool.not_true, Bool.and_false, Bool.or_false]
        by_cases he : x.queue_position = q + 1
        · have he2 : x.queue_position - 1 = q := by omega
          simp [he, he2]
        · have he2 : x.queue_position - 1 ≠ q := by omega
          simp [beq_iff_eq, he, he2]
      · have hdec : decide (res.queue_position < x.queue_position) = false := decide_eq_false hd
        simp only [hb3, hs2, hdec, Bool.and_false, Bool.false_eq_true, if_false, hwb,
          Bool.and_true, Bool.not_false, Bool.or_false, Bool.false_or]
    · have hwb2 : isWaitingFor bid x = false := Bool.eq_false_iff.mpr hwb
      have hbw : (x.book_id == res.book_id && x.status == "waiting") = false := by
        rw [hbid]
        exact hwb2
      have hcond : (x.book_id == res.book_id && x.status == "waiting" &&
          decide (res.queue_position < x.queue_position)) = false := by
        simp only [hbw, Bool.false_and]
      simp [hcond, hwb2]

theorem count_after_cancel (db : DB) (res : Reservation) (bid : String)
    (hmem : res ∈ db.reservations)
    (hids : (db.reservations.map (fun r => r.id)).Nodup)
    (hW : isWaitingFor bid res = true)
    (hbid : res.book_id = bid) (q : ℤ) :
    (waiting_positions
        { db with reservations :=
            (List.map
              (fun r => if r.book_id == res.book_id && r.status == "waiting" &&
                  decide (res.queue_position < r.queue_position) then
                  { r with queue_position := r.queue_position - 1 } else r)
              (List.map
                (fun x => if x.id == res.id then { res with status := "cancelled" } else x)
                db.reservations)) } bid).count q
      + (if res.queue_position = q then 1 else 0)
    = (if res.queue_position < q + 1 then (waiting_positions db bid).count (q + 1) else 0)
      + (if q ≤ res.queue_position then (waiting_positions db bid).count q else 0) := by
  have hsw : (("cancelled" : String) == "waiting") = false := by decide
  rw [count_waiting]
  show (List.map
      (fun r => if r.book_id == res.book_id && r.status == "waiting" &&
          decide (res.queue_position < r.queue_position) then
          { r with queue_position := r.queue_position - 1 } else r)
      (List.map
        (fun x => if x.id == res.id then { res with status := "cancelled" } else x)
        db.reservations)).countP
      (fun r => r.queue_position == q && isWaitingFor bid r) + _ = _
  have e1 : (List.map
      (fun r => if r.book_id == res.book_id && r.status == "waiting" &&
          decide (res.queue_position < r.queue_position) then
          { r with queue_position := r.queue_position - 1 } else r)
      (List.map
        (fun x => if x.id == res.id then { res with status := "cancelled" } else x)
        db.reservations)).countP
      (fun r => r.queue_position == q && isWaitingFor bid r)
      = db.reservations.countP
        (fun r => !(r.id == res.id) &&
          ((r.queue_position == q + 1 && isWaitingFor bid r &&
              decide (res.queue_position < r.queue_position)) ||
           (r.queue_position == q && isWaitingFor bid r &&
              !(decide (res.queue_position < r.queue_position))))) := by
    rw [List.map_map]
    exact countP_map_eq db.reservations _ _ _
      (fun x _ => cancel_pointwise res bid hsw hbid q x)
  rw [e1]
  have h2 := countP_not_id db.reservations res
    (fun r => (r.queue_position == q + 1 && isWaitingFor bid r &&
        decide (res.queue_position < r.queue_position)) ||
      (r.queue_position == q && isWaitingFor bid r &&
        !(decide (res.queue_position < r.queue_position)))) hmem hids
  have hself : decide (res.queue_position < res.queue_position) = false := by simp
  have h2b : db.reservations.countP
      (fun r => !(r.id == res.id) &&
        ((r.queue_position == q + 1 && isWaitingFor bid r &&
            decide (res.queue_position < r.queue_position)) ||
         (r.queue_position == q && isWaitingFor bid r &&
            !(decide (res.queue_position < r.queue_position)))))
      + (if res.queue_position = q then 1 else 0)
      = db.reservations.countP
        (fun r => (r.queue_position == q + 1 && isWaitingFor bid r &&
            decide (res.queue_position < r.queue_position)) ||
          (r.queue_position == q && isWaitingFor bid r &&
            !(decide (res.queue_position < r.queue_position)))) := by
    simpa [hself, hW, beq_iff_eq] using h2
  rw [h2b]
  rw [countP_or_disj]
  · congr 1
    · by_cases hpq : res.queue_position < q + 1
      · rw [if_pos hpq, count_waiting]
        apply countP_congr_eq
        intro x _
        by_cases he : x.queue_position = q + 1
        · have hdq : decide (res.queue_position < x.queue_position) = true := by
            rw [he]; exact decide_eq_true hpq
          rw [hdq, Bool.and_true]
        · have hbq : (x.queue_position == q + 1) = false := by simp [beq_iff_eq, he]
          rw [hbq]
          simp
      · rw [if_neg hpq]
        rw [countP_congr_eq _ _ (fun _ => false)
          (fun x _ => by
            by_cases he : x.queue_position = q + 1
            · have hdq : decide (res.queue_position < x.queue_position) = false := by
                rw [he]; exact decide_eq_false hpq
              rw [hdq, Bool.and_false]
            · have hbq : (x.queue_position == q + 1) = false := by simp [beq_iff_eq, he]
              rw [hbq]
              simp)]
        exact congrFun List.countP_false db.reservations
    · by_cases hqp : q ≤ res.queue_position
      · rw [if_pos hqp, count_waiting]
        apply countP_congr_eq
        intro x _
        by_cases he : x.queue_position = q
        · have hdq : decide (res.queue_position < x.queue_position) = false := by
            rw [he]; exact decide_eq_false (by omega)
          rw [hdq, Bool.not_false, Bool.and_true]
        · have hbq : (x.queue_position == q) = false := by simp [beq_iff_eq, he]
          rw [hbq]
          simp
      · rw [if_neg hqp]
        rw [countP_congr_eq _ _ (fun _ => false)
          (fun x _ => by
            by_cases he : x.queue_position = q
            · have hdq : decide (res.queue_position < x.queue_position) = true := by
                rw [he]; exact decide_eq_true (by omega)
              rw [hdq, Bool.not_true, Bool.and_false]
            · have hbq : (x.queue_position == q) = false := by simp [beq_iff_eq, he]
              rw [hbq]
              simp)]
        exact congrFun List.countP_false db.reservations
  · intro r hr
    obtain ⟨ha, hb⟩ := hr
    rw [Bool.and_eq_true] at ha hb
    rw [ha.2] at hb
    simp at hb

theorem length_pointwise (res : Reservation) (bid : String)
    (hsw : (("cancelled" : String) == "waiting") = false) (_hbid : res.book_id = bid)
    (x : Reservation) :
    ((fun r => isWaitingFor bid r)
      ((fun r => if r.book_id == res.book_id && r.status == "waiting" &&
          decide (res.queue_position < r.queue_position) then
          { r with queue_position := r.queue_position - 1 } else r)
        ((fun y => if y.id == res.id then { res with status := "cancelled" } else y) x)))
    = (!(x.id == res.id) && isWaitingFor bid x) := by
  by_cases hx : (x.id == res.id) = true
  · simp [hx, hsw, isWaitingFor]
  · have hxf : (x.id == res.id) = false := Bool.eq_false_iff.mpr hx
    simp only [hxf, Bool.false_eq_true, if_false, Bool.not_false, Bool.true_and]
    by_cases hs : (x.book_id == res.book_id && x.status == "waiting" &&
        decide (res.queue_position < x.queue_position)) = true
    · rw [if_pos hs]
      simp [isWaitingFor]
    · rw [if_neg hs]

theorem length_after_cancel (db : DB) (res : Reservation) (bid : String)
    (hmem : res ∈ db.reservations)
    (hids : (db.reservations.map (fun r => r.id)).Nodup)
    (hW : isWaitingFor bid res = true)
    (hbid : res.book_id = bid) :
    (waiting_positions
        { db with reservations :=
            (List.map
              (fun r => if r.book_id == res.book_id && r.status == "waiting" &&
                  decide (res.queue_position < r.queue_position) then
                  { r with queue_position := r.queue_position - 1 } else r)
              (List.map
                (fun x => if x.id == res.id then { res with status := "cancelled" } else x)
                db.reservations)) } bid).length + 1
      = (waiting_positions db bid).length := by
  have hsw : (("cancelled" : String) == "waiting") = false := by decide
  rw [length_waiting]
  show (List.map
      (fun r => if r.book_id == res.book_id && r.status == "waiting" &&
          decide (res.queue_position < r.queue_position) then
          { r with queue_position := r.queue_position - 1 } else r)
      (List.map
        (fun x => if x.id == res.id then { res with status := "cancelled" } else x)
        db.reservations)).countP (isWaitingFor bid) + _ = _
  have e1 : (List.map
      (fun r => if r.book_id == res.book_id && r.status == "waiting" &&
          decide (res.queue_position < r.queue_position) then
          { r with queue_position := r.queue_position - 1 } else r)
      (List.map
        (fun x => if x.id == res.id then { res with status := "cancelled" } else x)
        db.reservations)).countP (isWaitingFor bid)
      = db.reservations.countP (fun r => !(r.id == res.id) && isWaitingFor bid r) := by
    rw [List.map_map]
    exact countP_map_eq db.reservations _ _ _
      (fun x _ => length_pointwise res bid hsw hbid x)
  rw [e1]
  have h2 := countP_not_id db.reservations res (isWaitingFor bid) hmem hids
  rw [if_pos hW] at h2
  rw [length_waiting]
  exact h2

theorem run_after_remove_head (db : DB) (bid : String) (res res2 : Reservation)
    (hid : res2.id = res.id) (hnw : isWaitingFor bid res2 = false)
    (hmem : res ∈ db.reservations) (hW : isWaitingFor bid res = true)
    (hmin : ∀ x ∈ db.reservations, isWaitingFor bid x = true →
      res.queue_position ≤ x.queue_position)
    (hids : (db.reservations.map (fun r => r.id)).Nodup)
    (hrun : QueueContiguousRun db bid) :
    QueueContiguousRun (db.updateReservation res2) bid := by
  obtain ⟨p0, hp0, Hc⟩ := hrun
  have hmemL : res.queue_position ∈ waiting_positions db bid :=
    List.mem_map_of_mem _ (List.mem_filter.mpr ⟨hmem, hW⟩)
  have hresP : 0 < (waiting_positions db bid).count res.queue_position :=
    List.count_pos_iff.mpr hmemL
  have hcres := Hc res.queue_position
  have hrange : p0 ≤ res.queue_position ∧
      res.queue_position < p0 + (waiting_positions db bid).length := by
    by_contra hcon
    rw [if_neg hcon] at hcres
    omega
  have hn : 1 ≤ (waiting_positions db bid).length := by
    have := List.length_pos.mpr (List.ne_nil_of_mem hmemL)
    omega
  have hcp0 := Hc p0
  rw [if_pos ⟨le_refl p0, by omega⟩] at hcp0
  have hp0mem : p0 ∈ waiting_positions db bid := List.count_pos_iff.mp (by omega)
  obtain ⟨x, hxf, hxp⟩ := List.mem_map.mp hp0mem
  have hxl := List.mem_filter.mp hxf
  have hle := hmin x hxl.1 hxl.2
  have hposeq : res.queue_position = p0 := by omega
  have hlen := length_after_replace db bid res res2 hid hnw hW hmem hids
  refine ⟨p0 + 1, by omega, ?_⟩
  intro q
  have hcq := Hc q
  have he := count_after_replace db bid res res2 hid hnw hW hmem hids q
  rw [hposeq] at he
  rw [hcq] at he
  split_ifs at he ⊢ <;> omega

theorem run_preserved_mark_ready (db : DB) (bid : String) (res : Reservation)
    (hold_hours now : ℚ) (nf : Bool)
    (hnext : Reservation.get_next_in_queue db bid = some res)
    (hids : (db.reservations.map (fun r => r.id)).Nodup)
    (hrun : QueueContiguousRun db bid) :
    QueueContiguousRun (Reservation.mark_ready db res hold_hours now nf).1 bid := by
  obtain ⟨hmf, hminf⟩ := next_in_queue_aux_spec _ _ hnext
  have hmem : res ∈ db.reservations := (List.mem_filter.mp hmf).1
  have hW : isWaitingFor bid res = true := (List.mem_filter.mp hmf).2
  have hstat : (res.status == "waiting") = true := by
    have h := hW
    rw [isWaitingFor, Bool.and_eq_true] at h
    exact h.2
  have hmin : ∀ x ∈ db.reservations, isWaitingFor bid x = true →
      res.queue_position ≤ x.queue_position :=
    fun x hx hwx => hminf x (List.mem_filter.mpr ⟨hx, hwx⟩)
  have hrw : (("ready" : String) == "waiting") = false := by decide
  have hcore := run_after_remove_head db bid res
    ({ res with status := "ready", notified_date := some now, hold_until := some (now + hold_hours * 3600) })
    rfl (by simp [isWaitingFor, hrw]) hmem hW hmin hids hrun
  cases hbook : Book.get_by_id db res.book_id with
  | some b =>
    cases nf with
    | false =>
      simp only [Reservation.mark_ready, hstat, if_true, hbook, Bool.false_eq_true,
        if_false, SystemLog.add]
      exact hcore
    | true =>
      simp only [Reservation.mark_ready, hstat, if_true, hbook]
      exact hrun
  | none =>
    simp only [Reservation.mark_ready, hstat, if_true, hbook]
    exact hcore

theorem run_preserved_cancel_waiting (db : DB) (bid : String) (res : Reservation)
    (now : ℚ) (nf : Bool)
    (hmem : res ∈ db.reservations) (hbid : res.book_id = bid) (hst : res.status = "waiting")
    (hids : (db.reservations.map (fun r => r.id)).Nodup)
    (hrun : QueueContiguousRun db bid) :
    QueueContiguousRun (Reservation.cancel db res now nf).1 bid := by
  have hW : isWaitingFor bid res = true := by simp [isWaitingFor, hbid, hst]
  cases hbook : Book.get_by_id db res.book_id with
  | none =>
    have h0 : (res.status == "waiting") = true := by simp [hst]
    have hred : Reservation.cancel db res now nf = (db, false, "Book not found") := by
      simp only [Reservation.cancel, h0, Bool.true_or, if_true, hbook]
    rw [hred]
    exact hrun
  | some book =>
    have hred := cancel_waiting_reduces db res now nf book hst hbook
    have h1 : (Reservation.cancel db res now nf).1 =
        ({ db with reservations :=
            (List.map
              (fun r => if r.book_id == res.book_id && r.status == "waiting" &&
                  decide (res.queue_position < r.queue_position) then
                  { r with queue_position := r.queue_position - 1 } else r)
              (List.map
                (fun x => if x.id == res.id then { res with status := "cancelled" } else x)
                db.reservations)) } : DB) := by
      rw [hred]
    rw [h1]
    obtain ⟨p0, hp0, Hc⟩ := hrun
    have hmemL : res.queue_position ∈ waiting_positions db bid :=
      List.mem_map_of_mem _ (List.mem_filter.mpr ⟨hmem, hW⟩)
    have hresP : 0 < (waiting_positions db bid).count res.queue_position :=
      List.count_pos_iff.mpr hmemL
    have hcres := Hc res.queue_position
    have hrange : p0 ≤ res.queue_position ∧
        res.queue_position < p0 + (waiting_positions db bid).length := by
      by_contra hcon
      rw [if_neg hcon] at hcres
      omega
    have hlen := length_after_cancel db res bid hmem hids hW hbid
    refine ⟨p0, hp0, ?_⟩
    intro q
    have he := count_after_cancel db res bid hmem hids hW hbid q
    have hq1 := Hc q
    have hq2 := Hc (q + 1)
    rw [hq1, hq2] at he
    split_ifs at he ⊢ <;> omega

theorem run_preserved_create (db : DB) (bid uid : String) (now : ℚ) (rid : String)
    (hrun : QueueContiguousRun db bid) :
    QueueContiguousRun (Reservation.create db uid bid now rid).1 bid := by
  cases hbook : Book.get_by_id db bid with
  | none =>
    simp only [Reservation.create, hbook]
    exact hrun
  | some book =>
    by_cases hav : 0 < book.available_copies
    · simp only [Reservation.create, hbook, if_pos hav]
      exact hrun
    · by_cases hdup : (db.reservations.any (fun r =>
          r.user_id == uid && r.book_id == bid && r.status == "waiting")) = true
      · simp only [Reservation.create, hbook, if_neg hav, hdup, if_true]
        exact hrun
      · have hne : (db.reservations.any (fun r =>
            r.user_id == uid && r.book_id == bid && r.status == "waiting")) = false :=
          Bool.eq_false_iff.mpr hdup
        simp only [Reservation.create, hbook, if_neg hav, hne, Bool.false_eq_true, if_false]
        have hWnew : isWaitingFor bid
            (⟨rid, uid, bid, now, "waiting", none, none, next_queue_position db bid⟩ :
              Reservation) = true := by
          simp [isWaitingFor]
        have hwp := wp_append db
          ⟨rid, uid, bid, now, "waiting", none, none, next_queue_position db bid⟩ bid hWnew
        obtain ⟨p0, hp0, Hc⟩ := hrun
        by_cases hn : (waiting_positions db bid).length = 0
        · have hnil : waiting_positions db bid = [] := List.length_eq_zero.mp hn
          have hmax : max_pos_aux (waiting_positions db bid) = none :=
            (max_pos_aux_none _).mpr hnil
          have hnext : next_queue_position db bid = 1 := by
            rw [next_queue_position, hmax]
            show (0 : ℤ) + 1 = 1
            decide
          refine ⟨1, le_refl 1, ?_⟩
          intro q
          rw [hwp, hnil, hnext]
          simp only [List.nil_append, List.count_cons, List.count_nil, List.length_cons,
            List.length_nil, beq_iff_eq]
          split_ifs <;> omega
        · cases hmx : max_pos_aux (waiting_positions db bid) with
          | none =>
            exfalso
            have := (max_pos_aux_none _).mp hmx
            rw [this] at hn
            simp at hn
          | some m =>
            obtain ⟨hmmem, hmbound⟩ := max_pos_aux_spec _ m hmx
            have hcm := Hc m
            have hmrange : p0 ≤ m ∧ m < p0 + (waiting_positions db bid).length := by
              by_contra hcon
              rw [if_neg hcon] at hcm
              have := List.count_pos_iff.mpr hmmem
              omega
            have htop := Hc (p0 + (waiting_positions db bid).length - 1)
            rw [if_pos ⟨by omega, by omega⟩] at htop
            have htopmem : p0 + ((waiting_positions db bid).length : ℤ) - 1 ∈
                waiting_positions db bid := List.count_pos_iff.mp (by omega)
            have hmeq : m = p0 + ((waiting_positions db bid).length : ℤ) - 1 := by
              have := hmbound _ htopmem
              omega
            have hnext : next_queue_position db bid =
                p0 + ((waiting_positions db bid).length : ℤ) := by
              rw [next_queue_position, hmx]
              show m + 1 = p0 + ((waiting_positions db bid).length : ℤ)
              omega
            refine ⟨p0, hp0, ?_⟩
            intro q
            rw [hwp, hnext]
            rw [List.count_append, List.length_append]
            simp only [List.count_cons, List.count_nil, List.length_cons, List.length_nil,
              beq_iff_eq]
            have hq := Hc q
            split_ifs at hq ⊢ <;> omega

/-- Claim C4 amended part (corrected): every adjustment made through
update_available_copies lands in [0, total_copies] (for any book row with a
nonnegative total), and the persisted row agrees with the returned object;
the counterexample theorem shows Book.update_fields writes available_copies
without this clamp. -/
theorem C4_ledger_clamps_amended :
    ∀ (db : DB) (b : Book) (change : ℤ), 0 ≤ b.total_copies →
      BookInBounds (Book.update_available_copies db b change).2 ∧
      (Book.get_by_id db b.id = some b →
        Book.get_by_id (Book.update_available_copies db b change).1 b.id =
          some (Book.update_available_copies db b change).2) := by
  intro db b change h
  constructor
  · simp only [Book.update_available_copies, BookInBounds]
    constructor
    · split_ifs <;> omega
    · split_ifs <;> omega
  · intro hf
    have h2 : db.books.find? (fun r => r.id == b.id) = some b := hf
    exact find_update_first (fun r => r.id) db.books b.id
      (Book.update_available_copies db b change).2 b h2 rfl

/-- Witness for the amended C4 at a concrete over-increment: adding 7 copies
to bookB1 (total 1, available 0) clamps the stored value at 1. -/
theorem C4_ledger_clamps_witness :
    BookInBounds (Book.update_available_copies dbC1 bookB1 7).2 ∧
    Book.get_by_id (Book.update_available_copies dbC1 bookB1 7).1 bookB1.id =
      some (Book.update_available_copies dbC1 bookB1 7).2 := by
  have h := C4_ledger_clamps_amended dbC1 bookB1 7 (by norm_num [bookB1])
  exact ⟨h.1, h.2 rfl⟩

/-- Counterexample to claim C4 as stated: Book.update_fields with
available_copies 10 on a book whose total is 5 (and no waiting
reservations) stores 10 > 5, bypassing the bounded adjustment. -/
theorem C4_update_fields_bypasses_clamp :
    Book.get_by_id outC4.1 "b1" = some bookC4bad ∧
    ¬ BookInBounds bookC4bad ∧
    outC4.2.1 = true := by
  refine ⟨?_, ?_, ?_⟩
  · norm_num [outC4, dbC4, bookC4, bookC4bad, Book.update_fields_available, absorb_loop,
      Reservation.get_next_in_queue, next_in_queue_aux, isWaitingFor, DB.updateBook,
      Book.get_by_id, List.filter]
  · simp only [BookInBounds, bookC4bad]
    norm_num
  · norm_num [outC4, dbC4, bookC4, Book.update_fields_available, absorb_loop,
      Reservation.get_next_in_queue, next_in_queue_aux, isWaitingFor, DB.updateBook,
      List.filter]

/-- Claim C1 (code_bug evidence): in dbC1 the only copy of b1 is borrowed,
availability is 0 and u2 waits at position 1; returning the loan on time in
good condition reports success, increments the public availability to 1 AND
promotes the waiting reservation to ready — the two inventory dispositions
the claim says are mutually exclusive both happen. -/
theorem C1_return_releases_and_promotes :
    (Book.get_by_id dbC1 "b1").map (fun b => b.available_copies) = some 0 ∧
    (Reservation.get_by_id dbC1 "r1").map (fun r => r.status) = some "waiting" ∧
    outC1.2 = Except.ok (true, "Book returned") ∧
    (Book.get_by_id outC1.1 "b1").map (fun b => b.available_copies) = some 1 ∧
    (Reservation.get_by_id outC1.1 "r1").map (fun r => r.status) = some "ready" := by
  refine ⟨by norm_num [dbC1, bookB1, Book.get_by_id], by norm_num [dbC1, resW1, Reservation.get_by_id], ?_, ?_, ?_⟩ <;>
    norm_num [outC1, dbC1, Borrow.return_book, Borrow.calculate_late_fee,
      Borrow.calculate_damage_fee, borL1, bookB1, userU1, userU2, resW1, DB.updateBorrow,
      Book.get_by_id, User.get_by_id, Reservation.get_by_id, Book.update_available_copies,
      DB.updateBook, SystemLog.add, Borrow.notify_next_reservation,
      Reservation.has_active_reservations, isWaitingFor, Reservation.get_next_in_queue,
      next_in_queue_aux, Reservation.mark_ready, DB.updateReservation, List.countP,
      List.countP.go, Config.GRACE_PERIOD_MINUTES]

/-- Claim C2 (code_bug evidence): in dbC2 requester u1 holds a ready
reservation for b1 whose hold deadline 172800 has not passed at time 100,
and b1 has no public availability; Borrow.create nevertheless rejects the
request with the public-availability failure and leaves the state
untouched — there is no priority path. -/
theorem C2_no_priority_claim_path :
    resReadyU1 ∈ dbC2.reservations ∧
    resReadyU1.user_id = "u1" ∧
    resReadyU1.status = "ready" ∧
    resReadyU1.hold_until = some 172800 ∧
    (100 : ℚ) < 172800 ∧
    (Book.get_by_id dbC2 "b1").map (fun b => b.available_copies) = some 0 ∧
    outC2 = (dbC2, none, "Book is not available. Please reserve it instead.") := by
  refine ⟨by simp [dbC2], rfl, rfl, rfl, by norm_num, by norm_num [dbC2, bookB1, Book.get_by_id], ?_⟩
  norm_num [outC2, dbC2, Borrow.create, Book.get_by_id, bookB1, resReadyU1, userU1]

/-- Claim C6 (code_bug evidence): returning the borrowed loan borL6 as lost
with value 100000 gives the positive total fee 120000; the fine and the
violation increment are committed (as is the availability increment), and
then User.add_fine_record reads the undefined Config attribute
MAX_VIOLATIONS_BEFORE_LOCK, so return_book raises instead of returning a
(success, message) pair. -/
theorem C6_return_with_fee_raises :
    outC6.2 = Except.error "AttributeError: Config.MAX_VIOLATIONS_BEFORE_LOCK is not defined" ∧
    (User.get_by_id outC6.1 "u1").map (fun u => u.fines) = some 120000 ∧
    (User.get_by_id outC6.1 "u1").map (fun u => u.violations) = some 1 ∧
    (Book.get_by_id outC6.1 "b1").map (fun b => b.available_copies) = some 1 := by
  have h1 : ¬ (("lost" : String) = "good") := by decide
  have h2 : ¬ (("lost" : String) = "minor_damage") := by decide
  have h3 : ¬ (("lost" : String) = "major_damage") := by decide
  refine ⟨?_, ?_, ?_, ?_⟩ <;>
    norm_num [outC6, dbC6, Borrow.return_book, Borrow.calculate_late_fee,
      Borrow.calculate_damage_fee, borL6, bookB1, userU1, DB.updateBorrow, Book.get_by_id,
      User.get_by_id, Reservation.get_by_id, Book.update_available_copies, DB.updateBook,
      SystemLog.add, Borrow.notify_next_reservation, Reservation.has_active_reservations,
      isWaitingFor, Reservation.get_next_in_queue, next_in_queue_aux, Reservation.mark_ready,
      DB.updateReservation, User.add_fine, User.add_fine_record, DB.updateUser, List.countP,
      List.countP.go, Config.GRACE_PERIOD_MINUTES, h1, h2, h3]

theorem find_append_right {α : Type} (p : α → Bool) (l1 l2 : List α)
    (h : ∀ x ∈ l1, p x = false) : (l1 ++ l2).find? p = l2.find? p := by
  induction l1 with
  | nil => rfl
  | cons a t ih =>
    rw [List.cons_append, find_cons_false p a _ (h a (List.mem_cons_self a t))]
    exact ih (fun x hx => h x (List.mem_cons_of_mem a hx))

/-- Claim C3 amended (corrected): after an enqueue (Reservation.create),
after a cancellation of a waiting reservation (Reservation.cancel, which
decrements every waiting position above the cancelled one), and after
mark_ready applied to the head of the queue (the only way the engine calls
it), the waiting queue positions of an item remain a contiguous run of
consecutive integers with no gaps and no duplicates starting at some
p0 ≥ 1.  The run need not start at 1: mark_ready removes the lowest
position without re-packing (see the counterexample theorem), which is the
only correction to the claim. -/
theorem C3_queue_positions_amended :
    ∀ (db : DB) (bid : String), QueueContiguousRun db bid →
      (∀ (uid : String) (now : ℚ) (rid : String),
        QueueContiguousRun (Reservation.create db uid bid now rid).1 bid) ∧
      (∀ (res : Reservation) (now : ℚ) (nf : Bool),
        res ∈ db.reservations → res.book_id = bid → res.status = "waiting" →
        (db.reservations.map (fun r => r.id)).Nodup →
        QueueContiguousRun (Reservation.cancel db res now nf).1 bid) ∧
      (∀ (res : Reservation) (hold_hours now : ℚ) (nf : Bool),
        Reservation.get_next_in_queue db bid = some res →
        (db.reservations.map (fun r => r.id)).Nodup →
        QueueContiguousRun (Reservation.mark_ready db res hold_hours now nf).1 bid) := by
  intro db bid hrun
  exact ⟨fun uid now rid => run_preserved_create db bid uid now rid hrun,
    fun res now nf hmem hbid hst hids =>
      run_preserved_cancel_waiting db bid res now nf hmem hbid hst hids hrun,
    fun res hh now nf hnext hids =>
      run_preserved_mark_ready db bid res hh now nf hnext hids hrun⟩

/-- Witness for the amended C3: enqueueing a second reservation on the
one-waiting-reservation state dbQ1 keeps the queue a contiguous run. -/
theorem C3_queue_positions_witness :
    QueueContiguousRun (Reservation.create dbQ1 "u2" "b1" 0 "r2").1 "b1" := by
  have hrun : QueueContiguousRun dbQ1 "b1" := by
    refine ⟨1, le_refl 1, ?_⟩
    intro q
    rw [show waiting_positions dbQ1 "b1" = [1] from rfl]
    simp only [List.count_cons, List.count_nil, List.length_cons, List.length_nil, beq_iff_eq]
    split_ifs <;> omega
  exact (C3_queue_positions_amended dbQ1 "b1" hrun).1 "u2" 0 "r2"

/-- Counterexample to claim C3 as stated: from an empty queue, two enqueues
yield waiting positions [1, 2] (which do satisfy the claimed 1..N form);
mark_ready on the head of the queue then leaves positions [2], which
violates it — the positions no longer start at 1 and are never re-packed. -/
theorem C3_mark_ready_breaks_one_to_n :
    waiting_positions dbQ1 "b1" = [1] ∧
    waiting_positions dbQ2 "b1" = [1, 2] ∧
    QueueOneToN dbQ2 "b1" ∧
    waiting_positions dbQ3 "b1" = [2] ∧
    ¬ QueueOneToN dbQ3 "b1" := by
  refine ⟨rfl, rfl, ?_, rfl, ?_⟩
  · intro q
    rw [show waiting_positions dbQ2 "b1" = [1, 2] from rfl]
    simp only [List.count_cons, List.count_nil, List.length_cons, List.length_nil, beq_iff_eq]
    split_ifs <;> omega
  · intro h
    have h1 := h 1
    rw [show waiting_positions dbQ3 "b1" = [2] from rfl] at h1
    simp only [List.count_cons, List.count_nil, List.length_cons, List.length_nil,
      beq_iff_eq] at h1
    split_ifs at h1 <;> omega

/-- Claim C7 amended (corrected): Reservation.create fails exactly when the
item does not exist, the item has public availability > 0, or the requester
already has a WAITING reservation for the item (a ready reservation does
not block Reservation.create; the route layer checks that separately); on
success the new reservation is waiting with queue position
(max existing waiting position) + 1. -/
theorem C7_enqueue_amended :
    ∀ (db : DB) (user_id book_id : String) (now : ℚ) (new_id : String),
      (((Reservation.create db user_id book_id now new_id).2.1 = none) ↔
        (Book.get_by_id db book_id = none ∨
         (∃ b, Book.get_by_id db book_id = some b ∧ 0 < b.available_copies) ∨
         (∃ r ∈ db.reservations, r.user_id = user_id ∧ r.book_id = book_id ∧
           r.status = "waiting"))) ∧
      (∀ res : Reservation, (∀ r ∈ db.reservations, r.id ≠ new_id) →
        (Reservation.create db user_id book_id now new_id).2.1 = some res →
        res.status = "waiting" ∧ res.user_id = user_id ∧ res.book_id = book_id ∧
        res.queue_position = next_queue_position db book_id) := by
  intro db uid bid now rid
  cases hbook : Book.get_by_id db bid with
  | none =>
    constructor
    · simp [Reservation.create, hbook]
    · intro res hfresh hsome
      simp [Reservation.create, hbook] at hsome
  | some book =>
    by_cases hav : 0 < book.available_copies
    · constructor
      · have hval : (Reservation.create db uid bid now rid).2.1 = none := by
          simp only [Reservation.create, hbook, if_pos hav]
        exact ⟨fun _ => Or.inr (Or.inl ⟨book, rfl, hav⟩), fun _ => hval⟩
      · intro res _ hsome
        simp only [Reservation.create, hbook, if_pos hav] at hsome
        simp at hsome
    · by_cases hdup : (db.reservations.any (fun r =>
          r.user_id == uid && r.book_id == bid && r.status == "waiting")) = true
      · constructor
        · constructor
          · intro _
            refine Or.inr (Or.inr ?_)
            obtain ⟨r, hrl, hrp⟩ := List.any_eq_true.mp hdup
            rw [Bool.and_eq_true, Bool.and_eq_true] at hrp
            exact ⟨r, hrl, beq_iff_eq.mp hrp.1.1, beq_iff_eq.mp hrp.1.2, beq_iff_eq.mp hrp.2⟩
          · intro _
            simp only [Reservation.create, hbook, if_neg hav, hdup, if_true]
        · intro res _ hsome
          simp only [Reservation.create, hbook, if_neg hav, hdup, if_true] at hsome
          simp at hsome
      · have hne : (db.reservations.any (fun r =>
            r.user_id == uid && r.book_id == bid && r.status == "waiting")) = false :=
          Bool.eq_false_iff.mpr hdup
        have hres : (Reservation.create db uid bid now rid).2.1 =
            Reservation.get_by_id
              ({ db with reservations := db.reservations ++
                [{ id := rid, user_id := uid, book_id := bid, reservation_date := now, status := "waiting", notified_date := none, hold_until := none, queue_position := next_queue_position db bid }] })
              rid := by
          simp only [Reservation.create, hbook, if_neg hav, hne, Bool.false_eq_true, if_false]
        constructor
        · rw [hres]
          constructor
          · intro hnone
            exfalso
            rw [Reservation.get_by_id, List.find?_eq_none] at hnone
            exact hnone
              { id := rid, user_id := uid, book_id := bid, reservation_date := now, status := "waiting", notified_date := none, hold_until := none, queue_position := next_queue_position db bid }
              (List.mem_append_right _ (List.mem_singleton.mpr rfl)) (by simp)
          · intro hrhs
            exfalso
            rcases hrhs with h | ⟨b, hb, hbav⟩ | ⟨r, hrl, h1, h2, h3⟩
            · simp at h
            · injection hb with e
              subst e
              exact hav hbav
            · have hany : (db.reservations.any (fun r =>
                  r.user_id == uid && r.book_id == bid && r.status == "waiting")) = true :=
                List.any_eq_true.mpr ⟨r, hrl, by
                  rw [Bool.and_eq_true, Bool.and_eq_true]
                  exact ⟨⟨beq_iff_eq.mpr h1, beq_iff_eq.mpr h2⟩, beq_iff_eq.mpr h3⟩⟩
              exact hdup hany
        · intro res hfresh hsome
          rw [hres, Reservation.get_by_id] at hsome
          rw [find_append_right _ _ _ (fun x hx => Bool.eq_false_iff.mpr (fun hbeq =>
            hfresh x hx (beq_iff_eq.mp hbeq)))] at hsome
          rw [find_cons_true _ _ _ (by simp)] at hsome
          injection hsome with h
          subst h
          exact ⟨rfl, rfl, rfl, rfl⟩

/-- Witness for the amended C7: the enqueue of u1 for b1 on the empty-queue
state dbQ0 succeeds with a waiting reservation at position
(max existing waiting position) + 1 = 1. -/
theorem C7_enqueue_witness :
    resQ1.status = "waiting" ∧ resQ1.user_id = "u1" ∧ resQ1.book_id = "b1" ∧
    resQ1.queue_position = next_queue_position dbQ0 "b1" :=
  (C7_enqueue_amended dbQ0 "u1" "b1" 0 "r1").2 resQ1
    (by intro r hr; simp [dbQ0] at hr) rfl

/-- Counterexample to claim C7 as stated: in dbC2 the requester u1 holds a
READY reservation for b1 and b1 has no public availability, yet
Reservation.create accepts a second reservation from u1 for b1 (status
waiting, position 1) instead of failing — only waiting duplicates are
rejected. -/
theorem C7_ready_holder_requeues :
    resReadyU1 ∈ dbC2.reservations ∧
    resReadyU1.user_id = "u1" ∧
    resReadyU1.status = "ready" ∧
    (Book.get_by_id dbC2 "b1").map (fun b => b.available_copies) = some 0 ∧
    (outC7.2.1).map (fun r => r.status) = some "waiting" ∧
    (outC7.2.1).map (fun r => r.queue_position) = some 1 ∧
    outC7.2.2 = "Book reserved successfully" := by
  exact ⟨by simp [dbC2], rfl, rfl, rfl, rfl, rfl, rfl⟩

/-- Claim C8 amended (corrected): when the notification sink does not
raise, mark_ready on a waiting reservation of an existing book commits the
waiting-to-ready transition (status ready, notified timestamp and hold
deadline set) and reports success; but when the notification sink raises,
the shared transaction is rolled back — the reservation stays waiting and
mark_ready reports failure, so a notification failure does fail the primary
transition. -/
theorem C8_mark_ready_amended :
    ∀ (db : DB) (res : Reservation) (hold_hours now : ℚ) (book : Book),
      Reservation.get_by_id db res.id = some res →
      res.status = "waiting" →
      Book.get_by_id db res.book_id = some book →
      ((Reservation.mark_ready db res hold_hours now false).2 =
         (true, "Reservation marked as ready and notification sent") ∧
       Reservation.get_by_id (Reservation.mark_ready db res hold_hours now false).1 res.id =
         some ({ res with status := "ready", notified_date := some now, hold_until := some (now + hold_hours * 3600) }) ∧
       Reservation.mark_ready db res hold_hours now true =
         (db, false, "Failed to mark reservation as ready")) := by
  intro db res hh now book hres hstat hbook
  have hb : (res.status == "waiting") = true := by simp [hstat]
  have hres2 : db.reservations.find? (fun r => r.id == res.id) = some res := hres
  refine ⟨?_, ?_, ?_⟩
  · simp [Reservation.mark_ready, hb, hbook]
  · simp only [Reservation.mark_ready, hb, if_true, hbook, Bool.false_eq_true, if_false,
      SystemLog.add]
    exact find_update_first (fun r => r.id) db.reservations res.id
      ({ res with status := "ready", notified_date := some now, hold_until := some (now + hh * 3600) })
      res hres2 rfl
  · simp [Reservation.mark_ready, hb, hbook]

/-- Witness for the amended C8 on the concrete state dbC8. -/
theorem C8_mark_ready_witness :
    (Reservation.mark_ready dbC8 resW1 48 0 false).2 =
      (true, "Reservation marked as ready and notification sent") ∧
    Reservation.get_by_id (Reservation.mark_ready dbC8 resW1 48 0 false).1 resW1.id =
      some ({ resW1 with status := "ready", notified_date := some 0, hold_until := some (0 + 48 * 3600) }) ∧
    Reservation.mark_ready dbC8 resW1 48 0 true =
      (dbC8, false, "Failed to mark reservation as ready") :=
  C8_mark_ready_amended dbC8 resW1 48 0 bookB1 rfl rfl rfl

/-- Counterexample to claim C8 as stated: in dbC8 the reservation r1 is
waiting and the book exists, yet mark_ready with a raising notification
sink reports failure and leaves the reservation waiting — the transition
does not survive the notification failure. -/
theorem C8_notification_failure_rolls_back :
    (Reservation.get_by_id dbC8 "r1").map (fun r => r.status) = some "waiting" ∧
    outC8 = (dbC8, false, "Failed to mark reservation as ready") :=
  ⟨rfl, rfl⟩

end Library
